import Mathlib

/-!
Verification of the quantity-reconciliation core of the quick-order storefront
app, shallowly embedded from the client assets
(extensions/storefront-link/assets/persistent-cart.js and quick-order-list.js).

Modelling conventions, used throughout:

* Variant identifiers are digit strings in the source (data-variant-id
  attributes, updates[...] form names, cart item variant_id values); they are
  modelled as Nat.
* A JavaScript object whose keys are such integer-like strings enumerates its
  properties in ascending numeric key order, independent of insertion order.
  A quantity object is therefore modelled as an association list
  List (Nat x Int) kept sorted by key, and property assignment
  obj[k] = v is modelled by objInsert, which inserts in key order and
  overwrites an existing binding.  Object.entries, Object.keys and
  JSON.stringify equality of two such objects then correspond to the list
  itself, its length, and list equality respectively.
* parseInt applied to an input value is modelled as Option Int, with none for
  NaN (malformed input); the JavaScript idiom parseInt(x) || 0 is Option.getD 0.
* Network activity is recorded as a list of NetworkCall values in the order
  the requests are issued; a function that issues no request returns [].
-/

/-- A network request issued by the client, as observable remote effects. -/
inductive NetworkCall where
  /-- POST /cart/update.js with updates[variantId] = quantity. -/
  | cartUpdate (variantId : Nat) (quantity : Int)
  /-- POST /cart/add.js with id = variantId. -/
  | cartAdd (variantId : Nat) (quantity : Int)
  /-- GET /cart.js. -/
  | cartFetch
  /-- GET /apps/quick-order/cart-metafields?customerId=... -/
  | metafieldLoad
  /-- POST /apps/quick-order/cart-metafields with the serialized map. -/
  | metafieldSave (quantities : List (Nat × Int))
  deriving Repr, DecidableEq

/-- A quantity map: variant id to quantity, in ascending key order (the
enumeration order of a JavaScript object with integer-like string keys). -/
abbrev QMap : Type := List (Nat × Int)

/-- Property assignment obj[k] = v on an object with integer-like string keys:
insert in ascending key order, overwriting an existing binding. -/
def objInsert : QMap → Nat → Int → QMap
  | [], k, v => [(k, v)]
  | (k', v') :: rest, k, v =>
    if k < k' then (k, v) :: (k', v') :: rest
    else if k = k' then (k, v) :: rest
    else (k', v') :: objInsert rest k v

/-- Property lookup obj[k] on a quantity object. -/
def lookupQ : QMap → Nat → Option Int
  | [], _ => none
  | (k', v') :: rest, k => if k = k' then some v' else lookupQ rest k

/-- The well-formedness invariant of the object model: keys strictly ascending. -/
def SortedQ (m : QMap) : Prop := List.Pairwise (fun a b : Nat × Int => a.1 < b.1) m

/-- Property deletion, used only in proofs to decompose maps. -/
def eraseQ : QMap → Nat → QMap
  | [], _ => []
  | (k', v') :: rest, k => if k = k' then rest else (k', v') :: eraseQ rest k

/-- One line item of the Shopify cart JSON (/cart.js response), with the
fields persistent-cart.js reads: variant_id, id and quantity.  The source
reads item.variant_id?.toString() || item.id?.toString(), so both identifier
fields are optional; item.quantity || 0 maps a missing quantity to 0, which
coincides with Option.getD 0 here. -/
structure CartItem where
  variant_id : Option Nat
  id : Option Nat
  quantity : Int
  deriving Repr, DecidableEq

/-- item.variant_id?.toString() || item.id?.toString(). -/
def lineVariantId (it : CartItem) : Option Nat :=
  match it.variant_id with
  | some v => some v
  | none => it.id

/-- persistent-cart.js extractQuantitiesFromCart (lines 167-181): for each
line with a variant identifier, assign quantities[variantId] = item.quantity
(with || 0 collapsing a missing quantity to 0, already folded into
CartItem.quantity).  Note the assignment is unconditional: a zero-quantity
line produces an explicit zero entry. -/
def extractQuantitiesFromCart (items : List CartItem) : QMap :=
  items.foldl
    (fun m it =>
      match lineVariantId it with
      | some v => objInsert m v it.quantity
      | none => m)
    []

/-- One quantity input of the quick-order form together with the data
attributes persistent-cart.js reads from it and its row:
value is the parseInt of the current input value (none for NaN),
stockQuantity is the parseInt of data-stock-quantity (none for NaN/absent),
available is dataset.available !== 'false', rowFound records whether
input.closest(...) finds the product row, price is the data-price attribute
of the row price element in minor units, and previousValue is the parsed
dataset.previousValue recorded on focus. -/
structure QtyInput where
  variantId : Option Nat
  value : Option Int
  stockQuantity : Option Int
  inventoryManagement : Option String
  available : Bool
  rowFound : Bool
  productName : String
  price : Int
  previousValue : Option Int
  deriving Repr, DecidableEq

/-- parseInt(x) || 0. -/
def parsedOrZero (v : Option Int) : Int := v.getD 0

/-- persistent-cart.js getCurrentQuantities (lines 1040-1058): read every
quantity input, parse its value with parseInt(...) || 0, and record
quantities[variantId] = quantity only when a variant id is present and the
quantity is strictly positive. -/
def getCurrentQuantities (dom : List QtyInput) : QMap :=
  dom.foldl
    (fun m i =>
      match i.variantId with
      | some v => if 0 < parsedOrZero i.value then objInsert m v (parsedOrZero i.value) else m
      | none => m)
    []

-- Basic sorted-map lemmas ---------------------------------------------------

theorem lookupQ_objInsert (m : QMap) (k : Nat) (v : Int) (k' : Nat) :
    lookupQ (objInsert m k v) k' = if k' = k then some v else lookupQ m k' := by
  induction m with
  | nil => simp [objInsert, lookupQ]
  | cons p rest ih =>
    obtain ⟨a, b⟩ := p
    by_cases h1 : k < a
    · simp [objInsert, h1, lookupQ]
    · by_cases h2 : k = a
      · subst h2
        by_cases h : k' = k <;> simp [objInsert, lookupQ, h, lt_irrefl]
      · rw [objInsert, if_neg h1, if_neg h2, lookupQ, ih]
        by_cases h : k' = a
        · subst h
          have hne : k' ≠ k := fun hc => h2 hc.symm
          simp [lookupQ, hne]
        · by_cases h' : k' = k
          · simp [lookupQ, h, h', h2]
          · simp [lookupQ, h, h', h2]

theorem mem_objInsert {m : QMap} {k : Nat} {v : Int} {p : Nat × Int}
    (hp : p ∈ objInsert m k v) : p = (k, v) ∨ p ∈ m := by
  induction m with
  | nil =>
    rw [objInsert] at hp
    rcases List.mem_cons.mp hp with h | h
    · exact Or.inl h
    · exact absurd h (List.not_mem_nil p)
  | cons q rest ih =>
    obtain ⟨a, b⟩ := q
    rw [objInsert] at hp
    by_cases h1 : k < a
    · rw [if_pos h1] at hp
      rcases List.mem_cons.mp hp with h | h
      · exact Or.inl h
      · exact Or.inr h
    · by_cases h2 : k = a
      · rw [if_neg h1, if_pos h2] at hp
        rcases List.mem_cons.mp hp with h | h
        · exact Or.inl (by rw [h, h2])
        · exact Or.inr (List.mem_cons_of_mem _ h)
      · rw [if_neg h1, if_neg h2] at hp
        rcases List.mem_cons.mp hp with h | h
        · exact Or.inr (h ▸ List.mem_cons_self _ _)
        · rcases ih h with h' | h'
          · exact Or.inl h'
          · exact Or.inr (List.mem_cons_of_mem _ h')

theorem sortedQ_objInsert {m : QMap} (k : Nat) (v : Int) (hs : SortedQ m) :
    SortedQ (objInsert m k v) := by
  induction m with
  | nil => simp [objInsert, SortedQ]
  | cons p rest ih =>
    obtain ⟨a, b⟩ := p
    rw [SortedQ, List.pairwise_cons] at hs
    obtain ⟨ha, hrest⟩ := hs
    rw [objInsert]
    by_cases h1 : k < a
    · rw [if_pos h1, SortedQ, List.pairwise_cons]
      refine ⟨?_, ?_⟩
      · intro p hp
        rcases List.mem_cons.mp hp with h | h
        · rw [h]; exact h1
        · exact lt_trans h1 (ha p h)
      · rw [List.pairwise_cons]
        exact ⟨ha, hrest⟩
    · by_cases h2 : k = a
      · rw [if_neg h1, if_pos h2, SortedQ, List.pairwise_cons]
        refine ⟨?_, hrest⟩
        intro p hp
        rw [h2]
        exact ha p hp
      · rw [if_neg h1, if_neg h2, SortedQ, List.pairwise_cons]
        refine ⟨?_, ih hrest⟩
        intro p hp
        rcases mem_objInsert hp with h | h
        · rw [h]; show a < k; omega
        · exact ha p h

theorem lookupQ_eq_none_of_ne {m : QMap} {a : Nat} (h : ∀ p ∈ m, p.1 ≠ a) :
    lookupQ m a = none := by
  induction m with
  | nil => rfl
  | cons p rest ih =>
    obtain ⟨e, f⟩ := p
    have hae : a ≠ e := fun hc => (h (e, f) (by simp)) hc.symm
    rw [lookupQ, if_neg hae]
    exact ih (fun p hp => h p (List.mem_cons_of_mem _ hp))

theorem lookupQ_mem {m : QMap} {k : Nat} {v : Int} (h : lookupQ m k = some v) :
    (k, v) ∈ m := by
  induction m with
  | nil => simp [lookupQ] at h
  | cons p rest ih =>
    obtain ⟨a, b⟩ := p
    rw [lookupQ] at h
    by_cases hk : k = a
    · rw [if_pos hk] at h
      have : b = v := by injection h
      rw [hk, this]
      exact List.mem_cons_self _ _
    · rw [if_neg hk] at h
      exact List.mem_cons_of_mem _ (ih h)

theorem sortedQ_ext {m m' : QMap} (hs : SortedQ m) (hs' : SortedQ m')
    (h : ∀ k, lookupQ m k = lookupQ m' k) : m = m' := by
  induction m generalizing m' with
  | nil =>
    cases m' with
    | nil => rfl
    | cons p rest =>
      obtain ⟨c, d⟩ := p
      have := h c
      simp [lookupQ] at this
  | cons p rest ih =>
    obtain ⟨a, b⟩ := p
    cases m' with
    | nil =>
      have := h a
      simp [lookupQ] at this
    | cons q t =>
      obtain ⟨c, d⟩ := q
      rw [SortedQ, List.pairwise_cons] at hs hs'
      obtain ⟨ha, hrest⟩ := hs
      obtain ⟨hc, ht⟩ := hs'
      have hac : a = c := by
        by_contra hne
        have h2 : (a, b) ∈ (c, d) :: t := lookupQ_mem (by rw [← h a]; simp [lookupQ])
        have h4 : (c, d) ∈ (a, b) :: rest := lookupQ_mem (by rw [h c]; simp [lookupQ])
        rcases List.mem_cons.mp h2 with he | he
        · exact hne (congrArg Prod.fst he)
        · have hca : c < a := hc _ he
          rcases List.mem_cons.mp h4 with he' | he'
          · exact hne (congrArg Prod.fst he').symm
          · have : a < c := ha _ he'
            omega
      subst hac
      have hbd : b = d := by
        have := h a
        simpa [lookupQ] using this
      subst hbd
      congr 1
      apply ih hrest ht
      intro k
      by_cases hk : k = a
      · subst hk
        have h1 : lookupQ rest k = none :=
          lookupQ_eq_none_of_ne (fun p hp => by have := ha p hp; omega)
        have h2 : lookupQ t k = none :=
          lookupQ_eq_none_of_ne (fun p hp => by have := hc p hp; omega)
        rw [h1, h2]
      · have := h k
        rwa [lookupQ, lookupQ, if_neg hk, if_neg hk] at this

-- Stock validator -----------------------------------------------------------

/-- Result shape of persistent-cart.js validateStock: isValid, message and
maxAvailable (the admitted quantity). -/
structure StockValidation where
  isValid : Bool
  message : String
  maxAvailable : Int
  deriving Repr, DecidableEq

/-- persistent-cart.js validateStock (lines 695-748), translated clause by
clause: missing row, data-available equal to the string false, inventory not
managed by the platform, requested above tracked stock (with two message
variants depending on whether stock is positive), and the admitting case. -/
def validateStock (i : QtyInput) (requestedQuantity : Int) : StockValidation :=
  if !i.rowFound then
    { isValid := false, message := "Product information not found", maxAvailable := 0 }
  else
    let stockQuantity := parsedOrZero i.stockQuantity
    if !i.available then
      { isValid := false
        message := "Product unavailable: " ++ i.productName ++
          " is currently out of stock and cannot be added to cart."
        maxAvailable := 0 }
    else if i.inventoryManagement ≠ some "shopify" then
      { isValid := true, message := "Stock validated", maxAvailable := requestedQuantity }
    else if stockQuantity < requestedQuantity then
      { isValid := false
        message :=
          if 0 < stockQuantity then
            "Insufficient inventory: Requested quantity of " ++ toString requestedQuantity ++
              " exceeds available stock of " ++ toString stockQuantity ++ " for " ++
              i.productName ++ ". Quantity adjusted to maximum available."
          else
            "Product unavailable: " ++ i.productName ++ " is currently out of stock."
        maxAvailable := stockQuantity }
    else
      { isValid := true, message := "Stock validated", maxAvailable := requestedQuantity }

/-- Character-list test of whether the second list is an initial segment of
the first, used to state that a message mentions a number. -/
def charsStartWith : List Char → List Char → Bool
  | _, [] => true
  | [], _ :: _ => false
  | c :: s, d :: p => c = d && charsStartWith s p

/-- Character-list substring occurrence test. -/
def charsContain : List Char → List Char → Bool
  | [], p => p.isEmpty
  | c :: rest, p => charsStartWith (c :: rest) p || charsContain rest p

/-- Substring test used to state that a message mentions a number. -/
def strContains (s pat : String) : Bool := charsContain s.toList pat.toList

-- Persistence layer ---------------------------------------------------------

/-- Customer identity as rendered into window.customerId by the Liquid
template: none models null/undefined, some s a string value (the template
renders the literal string null when logged out). -/
def isCustomerFlag (cid : Option String) : Bool :=
  match cid with
  | none => false
  | some s => decide (s ≠ "null")

/-- Guard shared by loadQuantitiesFromMetafields (line 1099) and
saveQuantitiesToMetafields (line 1133): !customerId (falsy, so null,
undefined or the empty string) or the literal string null. -/
def customerAbsent (cid : Option String) : Bool :=
  match cid with
  | none => true
  | some s => decide (s = "" ∨ s = "null")

/-- persistent-cart.js loadQuantitiesFromMetafields (lines 1093-1125): skip
with an empty result and no request when the customer id is absent; otherwise
issue the GET and return the stored quantities on success and an empty map on
a non-ok response (the catch clause also returns an empty map). loadOk is the
response.ok of the app proxy, stored is the persisted quantities document. -/
def loadQuantitiesFromMetafields (cid : Option String) (loadOk : Bool) (stored : QMap) :
    QMap × List NetworkCall :=
  if customerAbsent cid then ([], [])
  else ((if loadOk then stored else []), [NetworkCall.metafieldLoad])

/-- persistent-cart.js saveQuantitiesToMetafields (lines 1127-1164): skip
without a request when the customer id is absent; otherwise issue the POST
carrying the full map. The response is only logged, and the catch clause
swallows all errors, so the function never throws and the call list does not
depend on the response. -/
def saveQuantitiesToMetafields (cid : Option String) (quantities : QMap) : List NetworkCall :=
  if customerAbsent cid then [] else [NetworkCall.metafieldSave quantities]

/-- persistent-cart.js restoreItemsToCart (lines 1167-1198): one POST to
/cart/add.js per entry of the map whose quantity is strictly positive, in
entry order. -/
def restoreItemsToCart (quantities : QMap) : List NetworkCall :=
  (quantities.filter (fun p => 0 < p.2)).map (fun p => NetworkCall.cartAdd p.1 p.2)

-- Reconciliation engine ------------------------------------------------------

/-- Observable outcome of one loadCartState run: the map adopted into the
form (restoreQuantitiesToInputs argument), the metafield write issued by the
cart-wins branch, the cart-add calls issued by the restore branch, and
whether the restore branch scheduled the follow-up cart re-fetch. -/
structure LoadOutcome where
  finalQuantities : QMap
  metafieldSaves : List NetworkCall
  cartAdds : List NetworkCall
  refetched : Bool
  deriving Repr, DecidableEq

/-- persistent-cart.js loadCartState (lines 49-152), reconciliation part
(lines 69-130): metafields are loaded only for a customer (line 64); the
restore branch fires when the cart is empty, the loaded metafield map is
non-empty, no session flag is set and the visitor is a customer; the
cart-wins branch fires whenever the cart map is non-empty and syncs the
metafields when the two serialized maps differ (JSON.stringify comparison,
which on these numeric-key objects coincides with list equality of the
canonical sorted association lists); every other case adopts the empty map
and writes nothing. The restore branch then issues the cart-add calls (guard
on line 117 rechecks that the adopted map is non-empty) and schedules a cart
re-fetch. sessionActive is the sessionStorage flag cart_session_active,
loadOk and stored parameterize the metafield GET as in
loadQuantitiesFromMetafields. -/
def loadCartState (cid : Option String) (loadOk : Bool) (stored : QMap)
    (items : List CartItem) (sessionActive : Bool) : LoadOutcome :=
  let cartQuantities := extractQuantitiesFromCart items
  let metafieldQuantities : QMap :=
    if isCustomerFlag cid then (loadQuantitiesFromMetafields cid loadOk stored).1 else []
  let cartIsEmpty := cartQuantities.isEmpty
  let metafieldsHaveData := !metafieldQuantities.isEmpty
  let isNewSession := !sessionActive
  if cartIsEmpty && metafieldsHaveData && isNewSession && isCustomerFlag cid then
    { finalQuantities := metafieldQuantities
      metafieldSaves := []
      cartAdds :=
        if !metafieldQuantities.isEmpty then restoreItemsToCart metafieldQuantities else []
      refetched := !metafieldQuantities.isEmpty }
  else if !cartIsEmpty then
    { finalQuantities := cartQuantities
      metafieldSaves :=
        if isCustomerFlag cid && decide (cartQuantities ≠ metafieldQuantities) then
          saveQuantitiesToMetafields cid cartQuantities
        else []
      cartAdds := []
      refetched := false }
  else
    { finalQuantities := []
      metafieldSaves := []
      cartAdds := []
      refetched := false }

-- Form restore ----------------------------------------------------------------

/-- querySelector plus assignment for one map entry inside
restoreQuantitiesToInputs: the first input whose variant id matches gets the
value (quantity || 0 collapses to the quantity itself, since a zero quantity
is written as 0 anyway); without a match the document is unchanged. -/
def setFirstMatching : List QtyInput → Nat → Int → List QtyInput
  | [], _, _ => []
  | i :: rest, v, q =>
    if i.variantId = some v then { i with value := some q } :: rest
    else i :: setFirstMatching rest v q

/-- Reset phase of restoreQuantitiesToInputs (lines 297-302): every quantity
input is set to 0. -/
def resetInputs (dom : List QtyInput) : List QtyInput :=
  dom.map (fun i => { i with value := some 0 })

/-- persistent-cart.js restoreQuantitiesToInputs (lines 294-329): reset all
inputs to 0, then write each map entry into the first matching input in
entry order. The change events it dispatches have no value-altering listener
at this point in the page lifecycle: bindQuantityEvents and
bindCartRemovalEvents are only attached after loadCartState resolves
(init, lines 21-34), and the PriceCalculator listeners only rewrite the
displayed totals, never the input values. -/
def restoreQuantitiesToInputs (dom : List QtyInput) (quantities : QMap) : List QtyInput :=
  quantities.foldl (fun d p => setFirstMatching d p.1 p.2) (resetInputs dom)

-- Mutation pipeline / snapshot save -------------------------------------------

/-- Mutable control fields of the PersistentCart instance that the save path
reads and writes: the customer id captured in the constructor, the isSaving
re-entrancy flag, the initialization-complete flag (field isInitialized in
the source, set at the end of loadCartState, line 144), and the
sessionStorage flag cart_session_active. -/
structure CartCtl where
  customerId : Option String
  isSaving : Bool
  initDone : Bool
  sessionActive : Bool
  deriving Repr, DecidableEq

/-- persistent-cart.js saveCurrentQuantities (lines 1061-1088) as one atomic
run of the whole call chain: an invocation arriving while isSaving is held
returns immediately with no state change and no request (skip, not queue);
otherwise the flag is set, the current quantities are read, the session flag
is marked active, the metafield save is issued only for a customer, and the
finally clause clears isSaving again, so the run ends with the flag exactly
as it found it. The isInitialized field is never consulted. -/
def saveCurrentQuantities (st : CartCtl) (dom : List QtyInput) : CartCtl × List NetworkCall :=
  if st.isSaving then (st, [])
  else
    let quantities := getCurrentQuantities dom
    let calls :=
      if isCustomerFlag st.customerId then saveQuantitiesToMetafields st.customerId quantities
      else []
    ({ st with sessionActive := true, isSaving := false }, calls)

/-- persistent-cart.js resetVariantQuantity (lines 332-356): when an input
for the variant exists, set its value to 0 and then unconditionally run
saveCurrentQuantities; when no input is found, log and do nothing. The
change and input events it dispatches re-enter the quantity pipeline and can
only issue further requests; they never alter the reset value, so omitting
them here under-approximates the network traffic of a call. -/
def resetVariantQuantity (st : CartCtl) (dom : List QtyInput) (v : Nat) :
    CartCtl × List QtyInput × List NetworkCall :=
  if dom.any (fun i => i.variantId = some v) then
    let dom1 := setFirstMatching dom v 0
    let res := saveCurrentQuantities st dom1
    (res.1, dom1, res.2)
  else (st, dom, [])

-- Quick order single-product widget (quick-order-list.js) ---------------------

/-- quick-order-list.js validateQuantity (lines 166-180): parse the input
value; NaN or below 1 is invalid, above 99 is invalid, anything else is
valid. The argument is the parseInt of the input value. -/
def validateQuantity (value : Option Int) : Bool :=
  match value with
  | none => false
  | some v => if v < 1 then false else if 99 < v then false else true

/-- quick-order-list.js normalizeQuantity (lines 182-189), run on blur: NaN
or below 1 becomes 1, above 99 becomes 99, otherwise the value is kept. -/
def normalizeQuantity (value : Option Int) : Int :=
  match value with
  | none => 1
  | some v => if v < 1 then 1 else if 99 < v then 99 else v

/-- quick-order-list.js addToCart (lines 204-261) up to the request: bail out
when validateQuantity fails or no variant id is found, otherwise issue the
cart-add request with the parsed quantity. The returned value is the request
payload, none when no request is made. -/
def addToCart (value : Option Int) (variantId : Option Nat) : Option (Nat × Int) :=
  if !validateQuantity value then none
  else
    match variantId with
    | none => none
    | some vid => some (vid, parsedOrZero value)

-- Input event dispatch order (stock clamp vs subtotal) ------------------------

/-- One product row as the document-level input listeners see it: the
quantity input together with the displayed line subtotal (the qo-total-value
text, in minor units: the sources divide the data-price cents by 100 for
display, which is pure formatting and kept in cents here). -/
structure RowDisplay where
  input : QtyInput
  displayedCents : Int
  deriving Repr, DecidableEq

/-- PriceCalculator.bindPriceEvents input listener (persistent-cart.js lines
1452-1458) for one row: updateRowTotal recomputes the displayed line total
from the current input value, with no validation. -/
def priceCalculatorOnInput (r : RowDisplay) : RowDisplay :=
  { r with displayedCents := r.input.price * parsedOrZero r.input.value }

/-- PersistentCart.bindQuantityEvents input listener (persistent-cart.js
lines 605-637), value-relevant part: validate the requested quantity, clamp
the input to maxAvailable when invalid and positive, then
updateRowSubtotalImmediate recomputes the displayed line total from the
final input value. (The debounced cart update and cart-icon timers are not
display mutations and are omitted.) -/
def persistentCartOnInput (r : RowDisplay) : RowDisplay :=
  let requested := parsedOrZero r.input.value
  let sv := validateStock r.input requested
  let input1 :=
    if !sv.isValid && decide (0 < requested) then { r.input with value := some sv.maxAvailable }
    else r.input
  { input := input1, displayedCents := input1.price * parsedOrZero input1.value }

/-- Document-level input event dispatch on a quantity input of the quick
order form, as ordered by listener registration: the DOMContentLoaded handler
(lines 2039-2052) constructs PersistentCart first, but its bindQuantityEvents
runs only after the awaited loadCartState resolves (init, lines 21-23), that
is, strictly after the same DOMContentLoaded handler has synchronously
constructed PriceCalculator, whose bindPriceEvents registers immediately
(lines 1446-1448). Listeners on the same target fire in registration order,
so the PriceCalculator listener observes the value first. The trace lists
the row state after each listener. -/
def inputEventTrace (r : RowDisplay) : List RowDisplay :=
  let r1 := priceCalculatorOnInput r
  let r2 := persistentCartOnInput r1
  [r1, r2]

-- Concurrent metafield writes -------------------------------------------------

/-- Fragment of the global client state relevant to write serialization: the
isSaving flag and the number of metafield POST requests currently awaiting a
response. The host is single threaded and suspension happens only at await
boundaries, so a scenario is a sequence of the atomic segments below. -/
structure FlightState where
  isSaving : Bool
  inflightWrites : Nat
  deriving Repr, DecidableEq

/-- Atomic segment of loadCartState at line 97: the cart-wins branch calls
saveQuantitiesToMetafields directly, which issues its POST (line 1147)
without consulting or setting isSaving; the run then suspends awaiting the
response, with the write in flight. -/
def loadCartStateSyncSaveStart (g : FlightState) : FlightState :=
  { g with inflightWrites := g.inflightWrites + 1 }

/-- Atomic segment of saveCurrentQuantities from entry (line 1063) through
the isSaving guard and acquisition (line 1068): returns none when the guard
makes the caller skip, otherwise the state with the flag held. -/
def saveCurrentQuantitiesAcquire (g : FlightState) : Option FlightState :=
  if g.isSaving then none else some { g with isSaving := true }

/-- Atomic segment of saveQuantitiesToMetafields at line 1147: the POST is
issued and the run suspends awaiting the response. -/
def saveQuantitiesToMetafieldsStart (g : FlightState) : FlightState :=
  { g with inflightWrites := g.inflightWrites + 1 }

-- Fold preservation lemmas ----------------------------------------------------

theorem sortedQ_extract_foldl (items : List CartItem) (acc : QMap) (h : SortedQ acc) :
    SortedQ (items.foldl
      (fun m it =>
        match lineVariantId it with
        | some v => objInsert m v it.quantity
        | none => m)
      acc) := by
  induction items generalizing acc with
  | nil => exact h
  | cons it rest ih =>
    rw [List.foldl_cons]
    apply ih
    cases hlv : lineVariantId it with
    | some v => simpa [hlv] using sortedQ_objInsert v it.quantity h
    | none => simpa [hlv] using h

theorem sortedQ_extractQuantitiesFromCart (items : List CartItem) :
    SortedQ (extractQuantitiesFromCart items) :=
  sortedQ_extract_foldl items [] (by simp [SortedQ])

theorem extract_foldl_pos (items : List CartItem) (acc : QMap)
    (hacc : ∀ p ∈ acc, 0 < p.2) (hitems : ∀ it ∈ items, 0 < it.quantity) :
    ∀ p ∈ (items.foldl
      (fun m it =>
        match lineVariantId it with
        | some v => objInsert m v it.quantity
        | none => m)
      acc), 0 < p.2 := by
  induction items generalizing acc with
  | nil => exact hacc
  | cons it rest ih =>
    rw [List.foldl_cons]
    apply ih
    · cases hlv : lineVariantId it with
      | some v =>
        intro p hp
        simp only [hlv] at hp
        rcases mem_objInsert hp with h | h
        · rw [h]; exact hitems it (by simp)
        · exact hacc p h
      | none =>
        intro p hp
        simp only [hlv] at hp
        exact hacc p hp
    · intro it' hit'
      exact hitems it' (List.mem_cons_of_mem _ hit')

theorem sortedQ_current_foldl (dom : List QtyInput) (acc : QMap) (h : SortedQ acc) :
    SortedQ (dom.foldl
      (fun m i =>
        match i.variantId with
        | some v =>
          if 0 < parsedOrZero i.value then objInsert m v (parsedOrZero i.value) else m
        | none => m)
      acc) := by
  induction dom generalizing acc with
  | nil => exact h
  | cons i rest ih =>
    rw [List.foldl_cons]
    apply ih
    cases hv : i.variantId with
    | some v =>
      by_cases hq : 0 < parsedOrZero i.value
      · simpa [hv, hq] using sortedQ_objInsert v (parsedOrZero i.value) h
      · simpa [hv, hq] using h
    | none => simpa [hv] using h

theorem sortedQ_getCurrentQuantities (dom : List QtyInput) :
    SortedQ (getCurrentQuantities dom) :=
  sortedQ_current_foldl dom [] (by simp [SortedQ])

theorem current_foldl_pos (dom : List QtyInput) (acc : QMap)
    (hacc : ∀ p ∈ acc, 0 < p.2) :
    ∀ p ∈ (dom.foldl
      (fun m i =>
        match i.variantId with
        | some v =>
          if 0 < parsedOrZero i.value then objInsert m v (parsedOrZero i.value) else m
        | none => m)
      acc), 0 < p.2 := by
  induction dom generalizing acc with
  | nil => exact hacc
  | cons i rest ih =>
    rw [List.foldl_cons]
    apply ih
    cases hv : i.variantId with
    | some v =>
      by_cases hq : 0 < parsedOrZero i.value
      · intro p hp
        simp only [hv, hq, if_pos] at hp
        rcases mem_objInsert hp with h | h
        · rw [h]; exact hq
        · exact hacc p h
      · intro p hp
        simp only [hv, hq] at hp
        exact hacc p hp
    | none =>
      intro p hp
      simp only [hv] at hp
      exact hacc p hp

-- Claim C7 --------------------------------------------------------------------

/-- C7, counterexample to the claim as stated: a cart line with quantity 0
does produce an explicit zero entry in the map returned by
extractQuantitiesFromCart, so the extracted map does not contain only
strictly positive entries. -/
theorem extractQuantitiesFromCart_zero_entry :
    extractQuantitiesFromCart [{ variant_id := some 1, id := none, quantity := 0 }] = [(1, 0)] ∧
    ¬ (∀ p ∈ extractQuantitiesFromCart [{ variant_id := some 1, id := none, quantity := 0 }],
        0 < p.2) := by
  constructor
  · rfl
  · intro h
    have := h (1, 0) (by rw [show extractQuantitiesFromCart
      [{ variant_id := some 1, id := none, quantity := 0 }] = [(1, 0)] from rfl]; simp)
    omega

/-- C7, amended: for a cart snapshot all of whose lines carry a strictly
positive quantity, every entry of the extracted map is strictly positive;
and unconditionally, every entry produced by getCurrentQuantities is
strictly positive (zero, negative and malformed input values are excluded). -/
theorem quantityMaps_positive_entries (items : List CartItem) (dom : List QtyInput)
    (hitems : ∀ it ∈ items, 0 < it.quantity) :
    (∀ p ∈ extractQuantitiesFromCart items, 0 < p.2) ∧
    (∀ p ∈ getCurrentQuantities dom, 0 < p.2) :=
  ⟨extract_foldl_pos items [] (by simp) hitems,
   current_foldl_pos dom [] (by simp)⟩

/-- C7, witness: the amended theorem applied at a concrete one-line cart and
a concrete two-input form. -/
theorem quantityMaps_positive_entries_witness :
    (∀ it ∈ [({ variant_id := some 7, id := none, quantity := 2 } : CartItem)],
      0 < it.quantity) ∧
    ((∀ p ∈ extractQuantitiesFromCart
        [({ variant_id := some 7, id := none, quantity := 2 } : CartItem)], 0 < p.2) ∧
     (∀ p ∈ getCurrentQuantities
        [({ variantId := some 7, value := some 3, stockQuantity := some 10,
            inventoryManagement := some "shopify", available := true, rowFound := true,
            productName := "Product", price := 100, previousValue := none } : QtyInput),
         ({ variantId := some 8, value := none, stockQuantity := none,
            inventoryManagement := none, available := true, rowFound := true,
            productName := "Product", price := 100, previousValue := none } : QtyInput)],
       0 < p.2)) :=
  ⟨by decide,
   quantityMaps_positive_entries _ _ (by decide)⟩

-- Claim C10 -------------------------------------------------------------------

/-- C10: the single-product widget enforces a hard 1..99 quantity range:
validateQuantity accepts exactly the parsed integers between 1 and 99,
normalizeQuantity rewrites malformed or below-1 values to 1 and above-99
values to 99 (and keeps in-range values), and addToCart issues a request
exactly for accepted quantities, so every issued request carries a quantity
in the range. -/
theorem quickOrder_quantity_limits (value : Option Int) (vid : Nat) :
    (validateQuantity value = true ↔ ∃ q, value = some q ∧ 1 ≤ q ∧ q ≤ 99) ∧
    (normalizeQuantity value =
      match value with
      | none => 1
      | some q => max 1 (min q 99)) ∧
    ((addToCart value (some vid)).isSome ↔ validateQuantity value = true) ∧
    (∀ p ∈ addToCart value (some vid), p.1 = vid ∧ 1 ≤ p.2 ∧ p.2 ≤ 99) := by
  refine ⟨?_, ?_, ?_, ?_⟩
  · cases value with
    | none => simp [validateQuantity]
    | some q =>
      constructor
      · intro h
        refine ⟨q, rfl, ?_, ?_⟩ <;>
          · by_contra hc
            simp [validateQuantity] at h
            omega
      · rintro ⟨q', hq', h1, h2⟩
        injection hq' with hq'
        subst hq'
        simp only [validateQuantity]
        rw [if_neg (by omega), if_neg (by omega)]
  · cases value with
    | none => rfl
    | some q =>
      simp only [normalizeQuantity]
      by_cases h1 : q < 1
      · rw [if_pos h1]; omega
      · rw [if_neg h1]
        by_cases h2 : 99 < q
        · rw [if_pos h2]; omega
        · rw [if_neg h2]; omega
  · cases hval : validateQuantity value with
    | false => simp [addToCart, hval]
    | true => simp [addToCart, hval]
  · intro p hp
    cases value with
    | none => simp [addToCart, validateQuantity] at hp
    | some q =>
      by_cases h1 : q < 1
      · simp [addToCart, validateQuantity, h1] at hp
      · by_cases h2 : 99 < q
        · simp [addToCart, validateQuantity, h1, h2] at hp
        · have heq : addToCart (some q) (some vid) = some (vid, q) := by
            simp [addToCart, validateQuantity, h1, h2, parsedOrZero]
          rw [Option.mem_def, heq] at hp
          have : (vid, q) = p := by injection hp
          rw [← this]
          exact ⟨rfl, by omega, by omega⟩

/-- C10, witness: the range theorem applied at quantity 50 and variant 7. -/
theorem quickOrder_quantity_limits_witness :
    (validateQuantity (some 50) = true ↔ ∃ q, some (50 : Int) = some q ∧ 1 ≤ q ∧ q ≤ 99) ∧
    (normalizeQuantity (some 50) =
      match (some (50 : Int) : Option Int) with
      | none => 1
      | some q => max 1 (min q 99)) ∧
    ((addToCart (some 50) (some 7)).isSome ↔ validateQuantity (some 50) = true) ∧
    (∀ p ∈ addToCart (some 50) (some 7), p.1 = 7 ∧ 1 ≤ p.2 ∧ p.2 ≤ 99) :=
  quickOrder_quantity_limits (some 50) 7

-- Claim C2 --------------------------------------------------------------------

/-- C2, counterexample to the claim as stated: for a purchasable,
platform-tracked variant with zero recorded stock, a request of 5 is
rejected with admitted quantity min(5, 0) = 0, but the rejection message is
the plain out-of-stock text, which does not mention the clamped value 0. -/
theorem validateStock_zero_stock_message :
    (validateStock
      { variantId := some 1, value := some 5, stockQuantity := some 0,
        inventoryManagement := some "shopify", available := true, rowFound := true,
        productName := "Product", price := 100, previousValue := none } 5).isValid = false ∧
    (validateStock
      { variantId := some 1, value := some 5, stockQuantity := some 0,
        inventoryManagement := some "shopify", available := true, rowFound := true,
        productName := "Product", price := 100, previousValue := none } 5).maxAvailable = 0 ∧
    strContains
      (validateStock
        { variantId := some 1, value := some 5, stockQuantity := some 0,
          inventoryManagement := some "shopify", available := true, rowFound := true,
          productName := "Product", price := 100, previousValue := none } 5).message
      "0" = false := by
  refine ⟨rfl, rfl, ?_⟩
  decide

/-- C2, amended: with the product row found, validateStock behaves as the
spec table prescribes, except that the rejection message carries the clamped
value only when tracked stock is positive; with tracked stock at zero or
below, the rejection message is the plain out-of-stock text. Not purchasable
means admitted 0 and rejected; untracked inventory admits the request
unchanged; tracked inventory admits min(requested, stock) and rejects
exactly when the request exceeds stock. -/
theorem validateStock_spec (i : QtyInput) (q : Int) (hrow : i.rowFound = true) :
    (i.available = false →
      validateStock i q =
        { isValid := false
          message := "Product unavailable: " ++ i.productName ++
            " is currently out of stock and cannot be added to cart."
          maxAvailable := 0 }) ∧
    (i.available = true → i.inventoryManagement ≠ some "shopify" →
      validateStock i q = { isValid := true, message := "Stock validated", maxAvailable := q }) ∧
    (i.available = true → i.inventoryManagement = some "shopify" →
      (validateStock i q).maxAvailable = min q (parsedOrZero i.stockQuantity) ∧
      ((validateStock i q).isValid = false ↔ parsedOrZero i.stockQuantity < q) ∧
      (parsedOrZero i.stockQuantity < q → 0 < parsedOrZero i.stockQuantity →
        (validateStock i q).message =
          "Insufficient inventory: Requested quantity of " ++ toString q ++
            " exceeds available stock of " ++ toString (parsedOrZero i.stockQuantity) ++
            " for " ++ i.productName ++ ". Quantity adjusted to maximum available.") ∧
      (parsedOrZero i.stockQuantity < q → parsedOrZero i.stockQuantity ≤ 0 →
        (validateStock i q).message =
          "Product unavailable: " ++ i.productName ++ " is currently out of stock.")) := by
  refine ⟨?_, ?_, ?_⟩
  · intro hav
    simp [validateStock, hrow, hav]
  · intro hav hinv
    simp [validateStock, hrow, hav, hinv]
  · intro hav hinv
    have hunf : validateStock i q =
        if parsedOrZero i.stockQuantity < q then
          { isValid := false
            message :=
              if 0 < parsedOrZero i.stockQuantity then
                "Insufficient inventory: Requested quantity of " ++ toString q ++
                  " exceeds available stock of " ++ toString (parsedOrZero i.stockQuantity) ++
                  " for " ++ i.productName ++ ". Quantity adjusted to maximum available."
              else "Product unavailable: " ++ i.productName ++ " is currently out of stock."
            maxAvailable := parsedOrZero i.stockQuantity }
        else { isValid := true, message := "Stock validated", maxAvailable := q } := by
      simp [validateStock, hrow, hav, hinv]
    refine ⟨?_, ?_, ?_, ?_⟩
    · rw [hunf]
      by_cases hlt : parsedOrZero i.stockQuantity < q
      · rw [if_pos hlt]; show parsedOrZero i.stockQuantity = _; omega
      · rw [if_neg hlt]; show q = _; omega
    · rw [hunf]
      by_cases hlt : parsedOrZero i.stockQuantity < q
      · rw [if_pos hlt]; simpa using hlt
      · rw [if_neg hlt]; simpa using hlt
    · intro hlt hposstock
      rw [hunf, if_pos hlt]
      show (if 0 < parsedOrZero i.stockQuantity then _ else _) = _
      rw [if_pos hposstock]
    · intro hlt hnonpos
      rw [hunf, if_pos hlt]
      show (if 0 < parsedOrZero i.stockQuantity then _ else _) = _
      rw [if_neg (by omega)]

/-- C2, witness: the amended theorem applied to a tracked, purchasable
variant with stock 3 and a request of 10. -/
theorem validateStock_spec_witness :
    ({ variantId := some 1, value := some 10, stockQuantity := some 3,
       inventoryManagement := some "shopify", available := true, rowFound := true,
       productName := "Product", price := 100, previousValue := none } : QtyInput).rowFound
      = true ∧
    (validateStock
      { variantId := some 1, value := some 10, stockQuantity := some 3,
        inventoryManagement := some "shopify", available := true, rowFound := true,
        productName := "Product", price := 100, previousValue := none } 10).maxAvailable
      = min 10 (parsedOrZero (some 3)) := by
  refine ⟨rfl, ?_⟩
  exact ((validateStock_spec _ 10 rfl).2.2 rfl rfl).1

-- Claim C9 --------------------------------------------------------------------

/-- C9: with no authenticated customer identifier (null/undefined, or the
literal string null rendered by the logged-out template), both persistence
operations return without issuing any request: the load returns the empty
map and the save does nothing. Both functions are total (their catch
clauses swallow every error in the source) and neither touches the form
inputs or cart state. -/
theorem metafieldPersistence_skips_without_customer (cid : Option String) (loadOk : Bool)
    (stored m : QMap) (h : cid = none ∨ cid = some "null") :
    loadQuantitiesFromMetafields cid loadOk stored = ([], []) ∧
    saveQuantitiesToMetafields cid m = [] := by
  rcases h with h | h <;> subst h <;>
    simp [loadQuantitiesFromMetafields, saveQuantitiesToMetafields, customerAbsent]

/-- C9, witness: the skip theorem applied to a logged-out session with a
non-empty stored snapshot and a non-empty map to save. -/
theorem metafieldPersistence_skips_without_customer_witness :
    loadQuantitiesFromMetafields (some "null") true [(1, 2)] = ([], []) ∧
    saveQuantitiesToMetafields (some "null") [(1, 2)] = [] :=
  metafieldPersistence_skips_without_customer (some "null") true [(1, 2)] [(1, 2)]
    (Or.inr rfl)

-- Claim C4 --------------------------------------------------------------------

/-- C4, counterexample to the claim as stated: in a state where
initialization is not yet complete (initDone false, reconciliation still in
flight) and no save is in progress, saveCurrentQuantities for a logged-in
customer executes immediately and issues the metafield write; it is neither
deferred nor skipped. -/
theorem saveCurrentQuantities_runs_before_init :
    (saveCurrentQuantities
      { customerId := some "123", isSaving := false, initDone := false, sessionActive := false }
      [{ variantId := some 7, value := some 2, stockQuantity := some 10,
         inventoryManagement := some "shopify", available := true, rowFound := true,
         productName := "Product", price := 100, previousValue := none }]).2
      = [NetworkCall.metafieldSave [(7, 2)]] := by
  rfl

/-- C4, amended: the save path has no initialization gate. Its request
activity is controlled exactly by the save-in-progress flag and the customer
identity, and is wholly independent of the initialization-complete flag
(which in the source is consulted only by the cart-summary polling loop
waitForPersistentCartAndSync before it reads, not writes, the cart). -/
theorem saveCurrentQuantities_no_init_gate (st : CartCtl) (dom : List QtyInput) :
    ((saveCurrentQuantities st dom).2 ≠ [] ↔
      st.isSaving = false ∧ isCustomerFlag st.customerId = true ∧
        customerAbsent st.customerId = false) ∧
    (∀ b, (saveCurrentQuantities { st with initDone := b } dom).2 =
        (saveCurrentQuantities st dom).2 ∧
      (saveCurrentQuantities { st with initDone := b } dom).1.isSaving =
        (saveCurrentQuantities st dom).1.isSaving) := by
  constructor
  · cases hs : st.isSaving with
    | true => simp [saveCurrentQuantities, hs]
    | false =>
      cases hflag : isCustomerFlag st.customerId with
      | false => simp [saveCurrentQuantities, saveQuantitiesToMetafields, hs, hflag]
      | true =>
        cases habs : customerAbsent st.customerId with
        | false => simp [saveCurrentQuantities, saveQuantitiesToMetafields, hs, hflag, habs]
        | true => simp [saveCurrentQuantities, saveQuantitiesToMetafields, hs, hflag, habs]
  · intro b
    cases hs : st.isSaving with
    | true => simp [saveCurrentQuantities, hs]
    | false => simp [saveCurrentQuantities, hs]

-- Claim C5 --------------------------------------------------------------------

/-- C5, counterexample to the never-two-writes-in-flight part: a legal
cooperative schedule reaches two concurrent metafield POSTs. loadCartState
suspends awaiting the write it issued directly (line 97, no flag taken); the
event loop then runs an edit-triggered saveCurrentQuantities, whose isSaving
guard sees false, proceeds, and issues a second write while the first is
still in flight. -/
theorem concurrent_metafield_writes_reachable :
    (saveCurrentQuantitiesAcquire
        (loadCartStateSyncSaveStart { isSaving := false, inflightWrites := 0 })).map
      saveQuantitiesToMetafieldsStart
      = some { isSaving := true, inflightWrites := 2 } := by
  rfl

/-- C5, amended: the save-in-progress flag serializes the writes that go
through saveCurrentQuantities: a second invocation arriving while the flag
is held returns at once with no state change and no request (skip, not
queue); a full run always ends with the flag exactly as it found it (the
finally clause releases it, and the inner save catches every error); and one
run issues at most one write. The flag does not serialize the direct
saveQuantitiesToMetafields calls made by loadCartState and syncWithCart,
so metafield writes from those paths can overlap a flagged write. -/
theorem saveCurrentQuantities_serializes (st : CartCtl) (dom : List QtyInput) :
    (st.isSaving = true → saveCurrentQuantities st dom = (st, [])) ∧
    (saveCurrentQuantities st dom).1.isSaving = st.isSaving ∧
    (saveCurrentQuantities st dom).2.length ≤ 1 := by
  refine ⟨fun hs => by simp [saveCurrentQuantities, hs], ?_, ?_⟩
  · cases hs : st.isSaving with
    | true => simp [saveCurrentQuantities, hs]
    | false => simp [saveCurrentQuantities, hs]
  · cases hs : st.isSaving with
    | true => simp [saveCurrentQuantities, hs]
    | false =>
      cases hflag : isCustomerFlag st.customerId with
      | false => simp [saveCurrentQuantities, hs, hflag]
      | true =>
        simp only [saveCurrentQuantities, hs, Bool.false_eq_true, reduceIte, hflag]
        cases habs : customerAbsent st.customerId with
        | false => simp [saveQuantitiesToMetafields, habs]
        | true => simp [saveQuantitiesToMetafields, habs]

/-- C5, witness: the serialization theorem applied in a state with the flag
held, where the call skips. -/
theorem saveCurrentQuantities_serializes_witness :
    (saveCurrentQuantities
        { customerId := some "123", isSaving := true, initDone := true, sessionActive := true }
        [] =
      ({ customerId := some "123", isSaving := true, initDone := true, sessionActive := true },
        [])) ∧
    (saveCurrentQuantities
        { customerId := some "123", isSaving := true, initDone := true, sessionActive := true }
        []).1.isSaving = true ∧
    (saveCurrentQuantities
        { customerId := some "123", isSaving := true, initDone := true, sessionActive := true }
        []).2.length ≤ 1 := by
  have h := saveCurrentQuantities_serializes
    { customerId := some "123", isSaving := true, initDone := true, sessionActive := true } []
  exact ⟨h.1 rfl, h.2.1, h.2.2⟩

-- Claim C3 --------------------------------------------------------------------

/-- PriceCalculator.calculateSubtotal (persistent-cart.js lines 1514-1558):
sum price times quantity over every quantity input with a positive parsed
value whose row (and price element) is found, regardless of pagination
visibility. Kept in minor units; the display division by 100 is formatting
only. -/
def calculateSubtotal (dom : List QtyInput) : Int :=
  dom.foldl
    (fun acc i =>
      let q := parsedOrZero i.value
      if 0 < q && i.rowFound then acc + i.price * q else acc)
    0

theorem setFirstMatching_already_zero {dom : List QtyInput} {v : Nat}
    (h : ∀ i ∈ dom, i.variantId = some v → i.value = some 0) :
    setFirstMatching dom v 0 = dom := by
  induction dom with
  | nil => rfl
  | cons i rest ih =>
    rw [setFirstMatching]
    by_cases hv : i.variantId = some v
    · rw [if_pos hv]
      have hval : i.value = some 0 := h i (by simp) hv
      have : { i with value := some 0 } = i := by rw [← hval]
      rw [this]
    · rw [if_neg hv, ih (fun j hj => h j (List.mem_cons_of_mem _ hj))]

/-- C3, counterexample to the claim as stated: after a first
resetVariantQuantity call has set the input for variant 111 to 0 and saved,
a second call on the resulting state issues a further snapshot save: the
unconditional saveCurrentQuantities at the end of the handler runs on every
call, so the second call is not free of network activity. -/
theorem resetVariantQuantity_second_call_not_silent :
    (resetVariantQuantity
        (resetVariantQuantity
          { customerId := some "123", isSaving := false, initDone := true,
            sessionActive := true }
          [{ variantId := some 111, value := some 5, stockQuantity := some 10,
             inventoryManagement := some "shopify", available := true, rowFound := true,
             productName := "Product", price := 100, previousValue := none }] 111).1
        (resetVariantQuantity
          { customerId := some "123", isSaving := false, initDone := true,
            sessionActive := true }
          [{ variantId := some 111, value := some 5, stockQuantity := some 10,
             inventoryManagement := some "shopify", available := true, rowFound := true,
             productName := "Product", price := 100, previousValue := none }] 111).2.1
        111).2.2
      = [NetworkCall.metafieldSave []] := by
  rfl

/-- C3, amended: calling resetVariantQuantity when the variant input is
already 0 changes no input value (the document is returned unchanged) and
hence no displayed total, but it is not a network no-op: the handler
unconditionally re-runs saveCurrentQuantities, so for a logged-in customer
with no save in flight every such call issues a fresh snapshot save (and the
change events it dispatches re-enter the cart-update pipeline on top of
that). -/
theorem resetVariantQuantity_repeat (st : CartCtl) (dom : List QtyInput) (v : Nat)
    (hmatch : ∃ i ∈ dom, i.variantId = some v)
    (hzero : ∀ i ∈ dom, i.variantId = some v → i.value = some 0) :
    (resetVariantQuantity st dom v).2.1 = dom ∧
    calculateSubtotal (resetVariantQuantity st dom v).2.1 = calculateSubtotal dom ∧
    (st.isSaving = false → isCustomerFlag st.customerId = true →
      customerAbsent st.customerId = false →
      (resetVariantQuantity st dom v).2.2 =
        [NetworkCall.metafieldSave (getCurrentQuantities dom)]) := by
  obtain ⟨i0, hi0, hiv0⟩ := hmatch
  have hany : dom.any (fun i => i.variantId = some v) = true :=
    List.any_eq_true.mpr ⟨i0, hi0, by simp [hiv0]⟩
  have hset : setFirstMatching dom v 0 = dom := setFirstMatching_already_zero hzero
  have hdom : (resetVariantQuantity st dom v).2.1 = dom := by
    simp [resetVariantQuantity, hany, hset]
  refine ⟨hdom, by rw [hdom], ?_⟩
  intro hs hflag habs
  simp [resetVariantQuantity, hany, hset, saveCurrentQuantities, hs, hflag,
    saveQuantitiesToMetafields, habs]

/-- C3, witness: the repeat theorem applied to a one-input form whose input
for variant 111 is already 0, with a logged-in customer and idle save flag. -/
theorem resetVariantQuantity_repeat_witness :
    (resetVariantQuantity
        { customerId := some "123", isSaving := false, initDone := true,
          sessionActive := true }
        [{ variantId := some 111, value := some 0, stockQuantity := some 10,
           inventoryManagement := some "shopify", available := true, rowFound := true,
           productName := "Product", price := 100, previousValue := none }] 111).2.1
      = [{ variantId := some 111, value := some 0, stockQuantity := some 10,
           inventoryManagement := some "shopify", available := true, rowFound := true,
           productName := "Product", price := 100, previousValue := none }] ∧
    (resetVariantQuantity
        { customerId := some "123", isSaving := false, initDone := true,
          sessionActive := true }
        [{ variantId := some 111, value := some 0, stockQuantity := some 10,
           inventoryManagement := some "shopify", available := true, rowFound := true,
           productName := "Product", price := 100, previousValue := none }] 111).2.2
      = [NetworkCall.metafieldSave []] := by
  have h := resetVariantQuantity_repeat
    { customerId := some "123", isSaving := false, initDone := true, sessionActive := true }
    [{ variantId := some 111, value := some 0, stockQuantity := some 10,
       inventoryManagement := some "shopify", available := true, rowFound := true,
       productName := "Product", price := 100, previousValue := none }] 111
    ⟨{ variantId := some 111, value := some 0, stockQuantity := some 10,
       inventoryManagement := some "shopify", available := true, rowFound := true,
       productName := "Product", price := 100, previousValue := none },
      by simp, rfl⟩
    (by intro i hi hv; simp at hi; rw [hi])
  exact ⟨h.1, h.2.2 rfl rfl rfl⟩

-- Claim C6 --------------------------------------------------------------------

/-- Row used to exhibit the dispatch-order divergence: tracked stock 3,
purchasable, unit price 100 minor units, and the user has just typed 10. -/
def clampDemoRow : RowDisplay :=
  { input :=
      { variantId := some 5, value := some 10, stockQuantity := some 3,
        inventoryManagement := some "shopify", available := true, rowFound := true,
        productName := "Product", price := 100, previousValue := none }
    displayedCents := 100 }

/-- C6: divergence between the claim and the code. On an input event with
requested quantity 10 against stock 3, the first registered document-level
listener (PriceCalculator updateRowTotal plus updateSubtotal) recomputes the
displayed line total from the raw value, showing 1000 minor units (10
units), and only the later-registered PersistentCart listener clamps the
value to 3 and corrects the display to 300: the displayed subtotal
transiently reflects the rejected quantity, contrary to the claim and to the
no-flickering comments in the source (lines 586, 607, 621). -/
theorem subtotal_transiently_shows_unclamped :
    inputEventTrace clampDemoRow =
      [ { input := clampDemoRow.input, displayedCents := 1000 },
        { input := { clampDemoRow.input with value := some 3 }, displayedCents := 300 } ] := by
  rfl

-- Claim C1 --------------------------------------------------------------------

/-- Authenticated customer in the sense of the claim: a customer id that the
constructor accepts (isCustomerFlag) and that the persistence guards do not
reject (not customerAbsent); equivalently, a string other than the empty
string and the literal null. -/
def isAuthCustomer (cid : Option String) : Bool :=
  match cid with
  | none => false
  | some s => decide (s ≠ "" ∧ s ≠ "null")

theorem isAuth_flags {cid : Option String} (h : isAuthCustomer cid = true) :
    isCustomerFlag cid = true ∧ customerAbsent cid = false := by
  cases cid with
  | none => simp [isAuthCustomer] at h
  | some s =>
    simp only [isAuthCustomer, decide_eq_true_eq] at h
    obtain ⟨h1, h2⟩ := h
    simp [isCustomerFlag, customerAbsent, h1, h2]

theorem absent_of_not_auth {cid : Option String} (hne : isAuthCustomer cid = false)
    (hflag : isCustomerFlag cid = true) : customerAbsent cid = true := by
  cases cid with
  | none => simp [isCustomerFlag] at hflag
  | some s =>
    simp only [isCustomerFlag, decide_eq_true_eq] at hflag
    simp only [isAuthCustomer, decide_eq_false_iff_not, not_and_or, not_not] at hne
    simp only [customerAbsent, decide_eq_true_eq]
    tauto

theorem metaQ_loaded (cid : Option String) (stored : QMap) :
    (if isCustomerFlag cid then (loadQuantitiesFromMetafields cid true stored).1 else []) =
      (if isAuthCustomer cid then stored else []) := by
  cases cid with
  | none => simp [isCustomerFlag, isAuthCustomer]
  | some s =>
    by_cases h1 : s = "null"
    · simp [isCustomerFlag, isAuthCustomer, h1]
    · by_cases h2 : s = ""
      · simp [isCustomerFlag, isAuthCustomer, h1, h2, loadQuantitiesFromMetafields,
          customerAbsent]
      · simp [isCustomerFlag, isAuthCustomer, h1, h2, loadQuantitiesFromMetafields,
          customerAbsent]

/-- C1: the loadCartState reconciliation matches the four-outcome table for
a persisted snapshot with positive quantities and a successful metafield
fetch. Cart non-empty: the cart map is adopted, no cart-adds and no
re-fetch, and for an authenticated customer the snapshot is overwritten with
the cart map exactly when the two maps differ (never for an unauthenticated
visitor). Cart empty, snapshot non-empty, session flag unset, authenticated:
the snapshot map is adopted, one cart-add is issued per entry, the cart is
re-fetched, and no snapshot write is issued. Every other case: the empty map
is adopted and no remote write of any kind is issued. -/
theorem loadCartState_reconciliation (cid : Option String) (stored : QMap)
    (items : List CartItem) (sessionActive : Bool)
    (hpos : ∀ p ∈ stored, 0 < p.2) :
    (extractQuantitiesFromCart items ≠ [] →
      (loadCartState cid true stored items sessionActive).finalQuantities =
          extractQuantitiesFromCart items ∧
        (loadCartState cid true stored items sessionActive).cartAdds = [] ∧
        (loadCartState cid true stored items sessionActive).refetched = false ∧
        (isAuthCustomer cid = true →
          (loadCartState cid true stored items sessionActive).metafieldSaves =
            if extractQuantitiesFromCart items ≠ stored then
              [NetworkCall.metafieldSave (extractQuantitiesFromCart items)]
            else []) ∧
        (isAuthCustomer cid = false →
          (loadCartState cid true stored items sessionActive).metafieldSaves = [])) ∧
    (extractQuantitiesFromCart items = [] → isAuthCustomer cid = true → stored ≠ [] →
      sessionActive = false →
      loadCartState cid true stored items sessionActive =
        { finalQuantities := stored
          metafieldSaves := []
          cartAdds := stored.map (fun p => NetworkCall.cartAdd p.1 p.2)
          refetched := true }) ∧
    (extractQuantitiesFromCart items = [] →
      (isAuthCustomer cid = false ∨ stored = [] ∨ sessionActive = true) →
      loadCartState cid true stored items sessionActive =
        { finalQuantities := [], metafieldSaves := [], cartAdds := [], refetched := false }) := by
  have hmeta := metaQ_loaded cid stored
  refine ⟨?_, ?_, ?_⟩
  · intro hne
    have hempty : (extractQuantitiesFromCart items).isEmpty = false := by
      cases hc : extractQuantitiesFromCart items with
      | nil => exact absurd hc hne
      | cons a t => rfl
    have heval : loadCartState cid true stored items sessionActive =
        { finalQuantities := extractQuantitiesFromCart items
          metafieldSaves :=
            if isCustomerFlag cid &&
                decide (extractQuantitiesFromCart items ≠
                  (if isAuthCustomer cid then stored else [])) then
              saveQuantitiesToMetafields cid (extractQuantitiesFromCart items)
            else []
          cartAdds := []
          refetched := false } := by
      simp only [loadCartState]
      rw [hmeta]
      simp [hempty]
    refine ⟨by rw [heval], by rw [heval], by rw [heval], ?_, ?_⟩
    · intro hauth
      obtain ⟨hflag, habs⟩ := isAuth_flags hauth
      rw [heval]
      by_cases hd : extractQuantitiesFromCart items = stored
      · simp [hauth, hflag, hd]
      · simp [hauth, hflag, hd, saveQuantitiesToMetafields, habs]
    · intro hauth
      by_cases hflag : isCustomerFlag cid = true
      · have habs := absent_of_not_auth hauth hflag
        rw [heval]
        simp [hauth, hflag, hne, saveQuantitiesToMetafields, habs]
      · rw [heval]
        simp [Bool.eq_false_iff.mpr hflag]
  · intro hcart hauth hstored hsess
    obtain ⟨hflag, habs⟩ := isAuth_flags hauth
    have hempty : (extractQuantitiesFromCart items).isEmpty = true := by
      rw [hcart]; rfl
    have hstoredne : stored.isEmpty = false := by
      cases hs : stored with
      | nil => exact absurd hs hstored
      | cons a t => rfl
    have hfilter : stored.filter (fun p => 0 < p.2) = stored :=
      List.filter_eq_self.mpr (fun p hp => by simpa using hpos p hp)
    subst hsess
    simp only [loadCartState]
    rw [hmeta]
    simp [hauth, hempty, hstoredne, hflag, restoreItemsToCart, hfilter]
  · intro hcart hother
    have hempty : (extractQuantitiesFromCart items).isEmpty = true := by
      rw [hcart]; rfl
    rcases hother with hauth | hstored | hsess
    · simp only [loadCartState]
      rw [hmeta]
      simp [hauth, hempty]
    · subst hstored
      simp only [loadCartState]
      rw [hmeta]
      simp [hempty]
    · subst hsess
      simp only [loadCartState]
      rw [hmeta]
      simp [hempty]

/-- C1, witness: the reconciliation theorem applied to the cross-device
restore scenario (empty cart, snapshot with variant 5 at quantity 2, fresh
session, authenticated customer). -/
theorem loadCartState_reconciliation_witness :
    (∀ p ∈ ([(5, 2)] : QMap), 0 < p.2) ∧
    loadCartState (some "123") true [(5, 2)] [] false =
      { finalQuantities := [(5, 2)], metafieldSaves := [],
        cartAdds := [NetworkCall.cartAdd 5 2], refetched := true } := by
  refine ⟨by decide, ?_⟩
  have h := loadCartState_reconciliation (some "123") [(5, 2)] [] false (by decide)
  have h2 := h.2.1 rfl (by decide) (by decide) rfl
  rw [h2]
  rfl

-- Claim C8: auxiliary lemmas ---------------------------------------------------

/-- One step of the getCurrentQuantities fold, named for use in proofs. -/
def qstep (m : QMap) (i : QtyInput) : QMap :=
  match i.variantId with
  | some v => if 0 < parsedOrZero i.value then objInsert m v (parsedOrZero i.value) else m
  | none => m

theorem getCurrentQuantities_eq_foldl (dom : List QtyInput) :
    getCurrentQuantities dom = dom.foldl qstep [] := rfl

theorem sortedQ_qstep {m : QMap} (i : QtyInput) (hs : SortedQ m) : SortedQ (qstep m i) := by
  rw [qstep]
  cases i.variantId with
  | none => exact hs
  | some v =>
    by_cases hq : 0 < parsedOrZero i.value
    · simpa [hq] using sortedQ_objInsert v (parsedOrZero i.value) hs
    · simpa [hq] using hs

theorem lookupQ_ne_none_of_mem {m : QMap} {k : Nat} {x : Int} (h : (k, x) ∈ m) :
    lookupQ m k ≠ none := by
  induction m with
  | nil => simp at h
  | cons p rest ih =>
    obtain ⟨a, b⟩ := p
    rw [lookupQ]
    by_cases hk : k = a
    · simp [hk]
    · rw [if_neg hk]
      rcases List.mem_cons.mp h with he | he
      · exact absurd (congrArg Prod.fst he) hk
      · exact ih he

theorem eraseQ_subset {m : QMap} {v : Nat} {p : Nat × Int} (h : p ∈ eraseQ m v) : p ∈ m := by
  induction m with
  | nil => simp [eraseQ] at h
  | cons q rest ih =>
    obtain ⟨a, b⟩ := q
    rw [eraseQ] at h
    by_cases hv : v = a
    · rw [if_pos hv] at h
      exact List.mem_cons_of_mem _ h
    · rw [if_neg hv] at h
      rcases List.mem_cons.mp h with he | he
      · exact he ▸ List.mem_cons_self _ _
      · exact List.mem_cons_of_mem _ (ih he)

theorem sortedQ_eraseQ {m : QMap} (v : Nat) (hs : SortedQ m) : SortedQ (eraseQ m v) := by
  induction m with
  | nil => exact hs
  | cons q rest ih =>
    obtain ⟨a, b⟩ := q
    rw [SortedQ, List.pairwise_cons] at hs
    obtain ⟨ha, hrest⟩ := hs
    rw [eraseQ]
    by_cases hv : v = a
    · rw [if_pos hv]
      exact hrest
    · rw [if_neg hv, SortedQ, List.pairwise_cons]
      exact ⟨fun p hp => ha p (eraseQ_subset hp), ih hrest⟩

theorem lookupQ_eraseQ_ne {m : QMap} {k v : Nat} (hk : k ≠ v) :
    lookupQ (eraseQ m v) k = lookupQ m k := by
  induction m with
  | nil => rfl
  | cons q rest ih =>
    obtain ⟨a, b⟩ := q
    rw [eraseQ]
    by_cases hv : v = a
    · rw [if_pos hv, lookupQ, if_neg (by omega : ¬ k = a)]
    · rw [if_neg hv, lookupQ, lookupQ]
      by_cases hk2 : k = a
      · rw [if_pos hk2, if_pos hk2]
      · rw [if_neg hk2, if_neg hk2, ih]

theorem lookupQ_eraseQ_self {m : QMap} (v : Nat) (hs : SortedQ m) :
    lookupQ (eraseQ m v) v = none := by
  induction m with
  | nil => rfl
  | cons q rest ih =>
    obtain ⟨a, b⟩ := q
    rw [SortedQ, List.pairwise_cons] at hs
    obtain ⟨ha, hrest⟩ := hs
    rw [eraseQ]
    by_cases hv : v = a
    · rw [if_pos hv]
      exact lookupQ_eq_none_of_ne (fun p hp => by have := ha p hp; omega)
    · rw [if_neg hv, lookupQ, if_neg hv]
      exact ih hrest

theorem eraseQ_key_ne {m : QMap} {v : Nat} {p : Nat × Int} (hs : SortedQ m)
    (hp : p ∈ eraseQ m v) : p.1 ≠ v := by
  intro hc
  have : ((v, p.2) : Nat × Int) ∈ eraseQ m v := by
    have : p = (v, p.2) := by
      obtain ⟨a, b⟩ := p
      simp only at hc
      rw [hc]
    rwa [← this]
  exact lookupQ_ne_none_of_mem this (lookupQ_eraseQ_self v hs)

theorem objInsert_eraseQ_self {m : QMap} {v : Nat} {q : Int} (hs : SortedQ m)
    (hl : lookupQ m v = some q) : objInsert (eraseQ m v) v q = m := by
  apply sortedQ_ext (sortedQ_objInsert v q (sortedQ_eraseQ v hs)) hs
  intro k
  rw [lookupQ_objInsert]
  by_cases hk : k = v
  · rw [if_pos hk, hk, hl]
  · rw [if_neg hk, lookupQ_eraseQ_ne hk]

theorem objInsert_comm {acc : QMap} (hacc : SortedQ acc) {k k' : Nat} (v v' : Int)
    (hne : k ≠ k') :
    objInsert (objInsert acc k v) k' v' = objInsert (objInsert acc k' v') k v := by
  apply sortedQ_ext (sortedQ_objInsert k' v' (sortedQ_objInsert k v hacc))
    (sortedQ_objInsert k v (sortedQ_objInsert k' v' hacc))
  intro a
  rw [lookupQ_objInsert, lookupQ_objInsert, lookupQ_objInsert, lookupQ_objInsert]
  by_cases h1 : a = k'
  · rw [if_pos h1, if_neg (by omega : ¬ a = k), if_pos h1]
  · rw [if_neg h1]
    by_cases h2 : a = k
    · rw [if_pos h2, if_pos h2]
    · rw [if_neg h2, if_neg h2, if_neg h1]

theorem setFirstMatching_mem {d : List QtyInput} {v : Nat} {q : Int} {i' : QtyInput}
    (h : i' ∈ setFirstMatching d v q) :
    i' ∈ d ∨ (i'.variantId = some v ∧ i'.value = some q) := by
  induction d with
  | nil => simp [setFirstMatching] at h
  | cons j rest ih =>
    rw [setFirstMatching] at h
    by_cases hj : j.variantId = some v
    · rw [if_pos hj] at h
      rcases List.mem_cons.mp h with he | he
      · exact Or.inr (by rw [he]; exact ⟨hj, rfl⟩)
      · exact Or.inl (List.mem_cons_of_mem _ he)
    · rw [if_neg hj] at h
      rcases List.mem_cons.mp h with he | he
      · exact Or.inl (he ▸ List.mem_cons_self _ _)
      · rcases ih he with h' | h'
        · exact Or.inl (List.mem_cons_of_mem _ h')
        · exact Or.inr h'

/-- Write phase of restoreQuantitiesToInputs: one setFirstMatching per map
entry, in entry order, starting from an arbitrary document. -/
def writeEntries (d : List QtyInput) (m : QMap) : List QtyInput :=
  m.foldl (fun d p => setFirstMatching d p.1 p.2) d

theorem restoreQuantitiesToInputs_eq (dom : List QtyInput) (m : QMap) :
    restoreQuantitiesToInputs dom m = writeEntries (resetInputs dom) m := rfl

theorem writeEntries_cons_entry (d : List QtyInput) (w : Nat) (qv : Int) (t : QMap) :
    writeEntries d ((w, qv) :: t) = writeEntries (setFirstMatching d w qv) t := rfl

theorem writeEntries_cons_nomatch {m : QMap} {i : QtyInput} {d : List QtyInput}
    (h : ∀ p ∈ m, i.variantId ≠ some p.1) :
    writeEntries (i :: d) m = i :: writeEntries d m := by
  induction m generalizing d with
  | nil => rfl
  | cons q t ih =>
    obtain ⟨w, qv⟩ := q
    have hne : i.variantId ≠ some w := h (w, qv) (by simp)
    rw [writeEntries_cons_entry]
    rw [show setFirstMatching (i :: d) w qv = i :: setFirstMatching d w qv from by
      rw [setFirstMatching, if_neg hne]]
    rw [ih (fun p hp => h p (List.mem_cons_of_mem _ hp))]
    rw [writeEntries_cons_entry]

theorem writeEntries_cons_match {m : QMap} {i : QtyInput} {d : List QtyInput} {v : Nat}
    {q : Int} (hs : SortedQ m) (hl : lookupQ m v = some q) (hi : i.variantId = some v) :
    writeEntries (i :: d) m = { i with value := some q } :: writeEntries d (eraseQ m v) := by
  induction m generalizing d with
  | nil => simp [lookupQ] at hl
  | cons p t ih =>
    obtain ⟨w, qv⟩ := p
    rw [SortedQ, List.pairwise_cons] at hs
    obtain ⟨hw, ht⟩ := hs
    rw [writeEntries_cons_entry]
    by_cases hv : v = w
    · subst hv
      rw [lookupQ, if_pos rfl] at hl
      have hqv : qv = q := by injection hl
      subst hqv
      rw [show setFirstMatching (i :: d) v qv = { i with value := some qv } :: d from by
        rw [setFirstMatching, if_pos hi]]
      have hnom : ∀ p ∈ t, ({ i with value := some qv } : QtyInput).variantId ≠ some p.1 := by
        intro p hp
        have := hw p hp
        simp only [hi]
        intro hc
        have : v = p.1 := by injection hc
        omega
      rw [writeEntries_cons_nomatch hnom,
        show eraseQ ((v, qv) :: t) v = t from by rw [eraseQ, if_pos rfl]]
    · rw [lookupQ, if_neg hv] at hl
      rw [show setFirstMatching (i :: d) w qv = i :: setFirstMatching d w qv from by
        rw [setFirstMatching, if_neg (by rw [hi]; intro hc; exact hv (by injection hc))]]
      rw [ih ht hl]
      rw [show eraseQ ((w, qv) :: t) v = (w, qv) :: eraseQ t v from by
        rw [eraseQ, if_neg hv]]
      rw [writeEntries_cons_entry]

theorem writeEntries_mem {m : QMap} {d : List QtyInput} {i' : QtyInput}
    (h : i' ∈ writeEntries d m) :
    i' ∈ d ∨ ∃ p ∈ m, i'.variantId = some p.1 ∧ i'.value = some p.2 := by
  induction m generalizing d with
  | nil => exact Or.inl h
  | cons q t ih =>
    obtain ⟨w, qv⟩ := q
    rw [writeEntries, List.foldl_cons] at h
    rcases ih (show i' ∈ writeEntries (setFirstMatching d w qv) t from h) with h' | h'
    · rcases setFirstMatching_mem h' with h'' | h''
      · exact Or.inl h''
      · exact Or.inr ⟨(w, qv), by simp, h''.1, h''.2⟩
    · obtain ⟨p, hp, hp2⟩ := h'
      exact Or.inr ⟨p, List.mem_cons_of_mem _ hp, hp2⟩

theorem qstep_foldl_objInsert_comm (d : List QtyInput) :
    ∀ (acc : QMap) (v : Nat) (q : Int), SortedQ acc →
      (∀ i ∈ d, ∀ w, i.variantId = some w → 0 < parsedOrZero i.value → w ≠ v) →
      d.foldl qstep (objInsert acc v q) = objInsert (d.foldl qstep acc) v q := by
  induction d with
  | nil => intro acc v q _ _; rfl
  | cons i rest ih =>
    intro acc v q hacc hd
    rw [List.foldl_cons, List.foldl_cons]
    have hstep : qstep (objInsert acc v q) i = objInsert (qstep acc i) v q := by
      rw [qstep, qstep]
      cases hv : i.variantId with
      | none => rfl
      | some w =>
        change
          (if 0 < parsedOrZero i.value then
            objInsert (objInsert acc v q) w (parsedOrZero i.value)
          else objInsert acc v q) =
          objInsert
            (if 0 < parsedOrZero i.value then objInsert acc w (parsedOrZero i.value) else acc)
            v q
        by_cases hq : 0 < parsedOrZero i.value
        · rw [if_pos hq, if_pos hq]
          exact objInsert_comm hacc _ _ (Ne.symm (hd i (by simp) w hv hq))
        · rw [if_neg hq, if_neg hq]
    rw [hstep]
    exact ih (qstep acc i) v q (sortedQ_qstep i hacc)
      (fun j hj w hw hq => hd j (List.mem_cons_of_mem _ hj) w hw hq)

theorem getCurrent_writeEntries (dom : List QtyInput) :
    ∀ m : QMap, SortedQ m → (∀ p ∈ m, 0 < p.2) →
      (∀ p ∈ m, ∃ i ∈ dom, i.variantId = some p.1) →
      getCurrentQuantities (writeEntries (resetInputs dom) m) = m := by
  induction dom with
  | nil =>
    intro m hs hpos hin
    cases m with
    | nil => rfl
    | cons p t =>
      obtain ⟨i, hi, _⟩ := hin p (by simp)
      simp at hi
  | cons i rest ih =>
    intro m hs hpos hin
    have hreset : resetInputs (i :: rest) = { i with value := some 0 } :: resetInputs rest := rfl
    cases hvar : i.variantId with
    | none =>
      have hnom : ∀ p ∈ m, ({ i with value := some 0 } : QtyInput).variantId ≠ some p.1 := by
        intro p hp hc
        rw [show ({ i with value := some 0 } : QtyInput).variantId = i.variantId from rfl,
          hvar] at hc
        exact Option.noConfusion hc
      rw [hreset, writeEntries_cons_nomatch hnom, getCurrentQuantities_eq_foldl,
        List.foldl_cons]
      have hq0 : qstep [] { i with value := some 0 } = [] := by
        simp [qstep, hvar]
      rw [hq0, ← getCurrentQuantities_eq_foldl]
      refine ih m hs hpos ?_
      intro p hp
      obtain ⟨j, hj, hjv⟩ := hin p hp
      rcases List.mem_cons.mp hj with he | he
      · rw [he, hvar] at hjv
        exact absurd hjv (Option.noConfusion)
      · exact ⟨j, he, hjv⟩
    | some v =>
      cases hlook : lookupQ m v with
      | none =>
        have hnom : ∀ p ∈ m, ({ i with value := some 0 } : QtyInput).variantId ≠ some p.1 := by
          intro p hp hc
          rw [show ({ i with value := some 0 } : QtyInput).variantId = i.variantId from rfl,
            hvar] at hc
          have hpv : p.1 = v := by injection hc with hc2; omega
          have hpm : ((v, p.2) : Nat × Int) ∈ m := by
            have : p = (v, p.2) := by
              obtain ⟨a, b⟩ := p
              simp only at hpv
              rw [hpv]
            rwa [← this]
          exact lookupQ_ne_none_of_mem hpm hlook
        rw [hreset, writeEntries_cons_nomatch hnom, getCurrentQuantities_eq_foldl,
          List.foldl_cons]
        have hq0 : qstep [] { i with value := some 0 } = [] := by
          simp [qstep, hvar, parsedOrZero]
        rw [hq0, ← getCurrentQuantities_eq_foldl]
        refine ih m hs hpos ?_
        intro p hp
        obtain ⟨j, hj, hjv⟩ := hin p hp
        rcases List.mem_cons.mp hj with he | he
        · rw [he, hvar] at hjv
          have hpv : p.1 = v := by injection hjv with hc2; omega
          exfalso
          have hpm : ((v, p.2) : Nat × Int) ∈ m := by
            have : p = (v, p.2) := by
              obtain ⟨a, b⟩ := p
              simp only at hpv
              rw [hpv]
            rwa [← this]
          exact lookupQ_ne_none_of_mem hpm hlook
        · exact ⟨j, he, hjv⟩
      | some q =>
        have hq_pos : 0 < q := hpos (v, q) (lookupQ_mem hlook)
        have hi0 : ({ i with value := some 0 } : QtyInput).variantId = some v := by
          rw [show ({ i with value := some 0 } : QtyInput).variantId = i.variantId from rfl,
            hvar]
        rw [hreset, writeEntries_cons_match hs hlook hi0, getCurrentQuantities_eq_foldl,
          List.foldl_cons]
        have hstep : qstep []
            { ({ i with value := some 0 } : QtyInput) with value := some q } =
            objInsert [] v q := by
          simp [qstep, hvar, parsedOrZero, hq_pos]
        rw [hstep]
        have hside : ∀ i' ∈ writeEntries (resetInputs rest) (eraseQ m v), ∀ w,
            i'.variantId = some w → 0 < parsedOrZero i'.value → w ≠ v := by
          intro i' hi' w hw hqp hc
          rcases writeEntries_mem hi' with h' | h'
          · obtain ⟨j, hj, hj2⟩ := List.mem_map.mp h'
            rw [show i'.value = some 0 from by rw [← hj2]] at hqp
            simp [parsedOrZero] at hqp
          · obtain ⟨p, hp, hp1, hp2⟩ := h'
            have hwp : w = p.1 := by
              rw [hw] at hp1
              exact Option.some.inj hp1
            have hne := eraseQ_key_ne hs hp
            omega
        rw [qstep_foldl_objInsert_comm _ [] v q (by simp [SortedQ]) hside]
        have hihres : List.foldl qstep [] (writeEntries (resetInputs rest) (eraseQ m v)) =
            eraseQ m v := by
          rw [← getCurrentQuantities_eq_foldl]
          refine ih (eraseQ m v) (sortedQ_eraseQ v hs)
            (fun p hp => hpos p (eraseQ_subset hp)) ?_
          intro p hp
          obtain ⟨j, hj, hjv⟩ := hin p (eraseQ_subset hp)
          rcases List.mem_cons.mp hj with he | he
          · rw [he, hvar] at hjv
            have hpv : p.1 = v := by injection hjv with hc2; omega
            exact absurd hpv (eraseQ_key_ne hs hp)
          · exact ⟨j, he, hjv⟩
        rw [hihres]
        exact objInsert_eraseQ_self hs hlook

/-- C8, counterexample to the claim as stated, in two independent ways with
no stock clamping involved: a cart line whose variant has no quantity input
in the form is dropped by the round trip, and a zero-quantity cart line
yields an explicit zero entry that the re-extraction excludes; in both cases
the re-extracted map differs from the extracted one. -/
theorem quantityRoundTrip_counterexample :
    (getCurrentQuantities
        (restoreQuantitiesToInputs []
          (extractQuantitiesFromCart [{ variant_id := some 1, id := none, quantity := 2 }]))
        = [] ∧
      extractQuantitiesFromCart [{ variant_id := some 1, id := none, quantity := 2 }]
        = [(1, 2)] ∧
      ([] : QMap) ≠ [(1, 2)]) ∧
    (getCurrentQuantities
        (restoreQuantitiesToInputs
          [{ variantId := some 1, value := some 5, stockQuantity := some 10,
             inventoryManagement := some "shopify", available := true, rowFound := true,
             productName := "Product", price := 100, previousValue := none }]
          (extractQuantitiesFromCart [{ variant_id := some 1, id := none, quantity := 0 }]))
        = [] ∧
      extractQuantitiesFromCart [{ variant_id := some 1, id := none, quantity := 0 }]
        = [(1, 0)] ∧
      ([] : QMap) ≠ [(1, 0)]) := by
  exact ⟨⟨rfl, rfl, by decide⟩, ⟨rfl, rfl, by decide⟩⟩

/-- C8, amended: the round trip is the identity provided every cart line has
a strictly positive quantity and every extracted variant has a quantity
input present in the form: extracting the cart map, writing it into the form
with restoreQuantitiesToInputs (which resets every input to 0 first) and
re-extracting with getCurrentQuantities returns the extracted map unchanged.
No stock-clamping correction can intervene at this point because the
validating change listener is not yet bound when restoreQuantitiesToInputs
runs during loadCartState. -/
theorem quantityRoundTrip (items : List CartItem) (dom : List QtyInput)
    (hq : ∀ it ∈ items, 0 < it.quantity)
    (hin : ∀ p ∈ extractQuantitiesFromCart items, ∃ i ∈ dom, i.variantId = some p.1) :
    getCurrentQuantities (restoreQuantitiesToInputs dom (extractQuantitiesFromCart items)) =
      extractQuantitiesFromCart items := by
  rw [restoreQuantitiesToInputs_eq]
  exact getCurrent_writeEntries dom _ (sortedQ_extractQuantitiesFromCart items)
    (extract_foldl_pos items [] (by simp) hq) hin

/-- C8, witness: the round-trip theorem applied to a two-line cart and a
form holding inputs for both variants plus an unrelated one. -/
theorem quantityRoundTrip_witness :
    (∀ it ∈ [({ variant_id := some 5, id := none, quantity := 2 } : CartItem),
             ({ variant_id := some 3, id := none, quantity := 7 } : CartItem)],
      0 < it.quantity) ∧
    getCurrentQuantities
        (restoreQuantitiesToInputs
          [{ variantId := some 3, value := some 9, stockQuantity := some 10,
             inventoryManagement := some "shopify", available := true, rowFound := true,
             productName := "Product", price := 100, previousValue := none },
           { variantId := some 4, value := some 1, stockQuantity := some 10,
             inventoryManagement := some "shopify", available := true, rowFound := true,
             productName := "Product", price := 100, previousValue := none },
           { variantId := some 5, value := none, stockQuantity := some 10,
             inventoryManagement := some "shopify", available := true, rowFound := true,
             productName := "Product", price := 100, previousValue := none }]
          (extractQuantitiesFromCart
            [{ variant_id := some 5, id := none, quantity := 2 },
             { variant_id := some 3, id := none, quantity := 7 }])) =
      extractQuantitiesFromCart
        [{ variant_id := some 5, id := none, quantity := 2 },
         { variant_id := some 3, id := none, quantity := 7 }] := by
  refine ⟨by decide, quantityRoundTrip _ _ (by decide) (by decide)⟩
